import Mathlib

/-!
Shallow embedding of the fare normalization and analytics engine of the
redbus_scrapper repository (files `src/database/data_manager.py` and
`src/models/database_models.py`), together with theorems settling the
frozen claims about it.

Conventions of the embedding:
* Python `float` values that the code obtains by parsing decimal numerals
  and combining with `+ - * /` are modelled as rationals (`ℚ`).
* Python `None` / missing values are modelled with `Option`.
* A Python function that catches an internal exception and returns `None`
  (or `{}`) is modelled as returning `none` on that path.
* Python strings are Lean `String`s; string comparison (used by `sorted`
  and by the storage layer's sort stage) is lexicographic on the
  code-point sequence, modelled by `List.Lex (· < ·)` on `String.data`.
* The regex `\d` is modelled as the ASCII digits `0`–`9` (`Char.isDigit`).
-/

namespace RedBus

/-! ### Field Extractor (`data_manager.py`, `_extract_rating` /
`_extract_price` / `_extract_seats_count`) -/

/-- Numeric value of a list of decimal digit characters, most significant
first (the usual positional reading, as Python `int`/`float` parse it). -/
def digitsToNat (l : List Char) : Nat :=
  l.foldl (fun n c => 10 * n + (c.toNat - 48)) 0

/-- First match of the regex `\d+\.?\d*` in a character list: scan for the
first digit, take the maximal digit run, then an optional dot followed by a
maximal digit run.  Returns the integer-part digits and the fractional-part
digits of the matched substring, or `none` when the list has no digit. -/
def firstNumeral : List Char → Option (List Char × List Char)
  | [] => none
  | c :: cs =>
    if c.isDigit then
      let intPart := (c :: cs).takeWhile Char.isDigit
      let rest := (c :: cs).dropWhile Char.isDigit
      match rest with
      | '.' :: cs2 => some (intPart, cs2.takeWhile Char.isDigit)
      | _ => some (intPart, [])
    else firstNumeral cs

/-- First match of the regex `\d+` in a character list: the maximal digit
run starting at the first digit, or `none` when the list has no digit. -/
def firstIntRun : List Char → Option (List Char)
  | [] => none
  | c :: cs =>
    if c.isDigit then some ((c :: cs).takeWhile Char.isDigit)
    else firstIntRun cs

/-- Value denoted by a matched numeral `\d+\.?\d*` with integer-part digits
`ip` and fractional-part digits `fp` (Python `float` of the match).  An
integer-only match denotes its integer value; the separate branch only
avoids the redundant `+ 0 / 1` term. -/
def numVal (ip fp : List Char) : ℚ :=
  if fp.isEmpty then (digitsToNat ip : ℚ)
  else (digitsToNat ip : ℚ) + (digitsToNat fp : ℚ) / (10 : ℚ) ^ fp.length

/-- Embedding of `DataManager._extract_rating`: `None`/empty/"N/A" give
`none`; otherwise the first `\d+\.?\d*` match is parsed and returned only
when it lies in the closed range [0, 5]. -/
def extract_rating (s : Option String) : Option ℚ :=
  match s with
  | none => none
  | some str =>
    if str = "" ∨ str = "N/A" then none
    else
      match firstNumeral str.data with
      | some (ip, fp) =>
        let r := numVal ip fp
        if 0 ≤ r ∧ r ≤ 5 then some r else none
      | none => none

/-- Embedding of `DataManager._extract_price`: `None`/empty/"N/A" give
`none`; otherwise commas are removed and the first `\d+\.?\d*` match is
parsed as a float, with no range restriction. -/
def extract_price (s : Option String) : Option ℚ :=
  match s with
  | none => none
  | some str =>
    if str = "" ∨ str = "N/A" then none
    else
      match firstNumeral (str.data.filter (· != ',')) with
      | some (ip, fp) => some (numVal ip fp)
      | none => none

/-- Embedding of `DataManager._extract_seats_count`: `None`/empty/"N/A"
give `none`; otherwise the first `\d+` match is parsed as an integer. -/
def extract_seats (s : Option String) : Option Nat :=
  match s with
  | none => none
  | some str =>
    if str = "" ∨ str = "N/A" then none
    else
      match firstIntRun str.data with
      | some run => some (digitsToNat run)
      | none => none

example : extract_price (some "N/A") = none := by decide
example : extract_price (some "") = none := by decide
example : extract_seats (some "12 seats") = some 12 := by decide

/-! ### Storage model (`database_models.py`, `DatabaseManager`)

MongoDB collections are modelled as in-memory lists of rows; the
storage-assigned `_id` values are modelled by a counter `nextId`.
`datetime.utcnow()` timestamps are modelled by a fixed clock value `now`
(analytics lookback filters compare against `now - days_back`).  Each
`insert_*` method wraps its body in `try/except` and returns `None` on a
storage fault; a `Failures` record says which operations the (external)
storage backend currently fails, and a failed operation returns `none`
and leaves the database unchanged, exactly like the `except` branch. -/

structure RouteRow where
  id : Nat
  source : String
  destination : String
deriving DecidableEq, Repr

structure OperatorRow where
  id : Nat
  name : String
  rating : Option ℚ
deriving DecidableEq, Repr

structure ServiceRow where
  id : Nat
  route_id : Option Nat
  operator_id : Nat
  bus_type : String
  departure_time : String
  arrival_time : String
  duration : String
  rating : Option ℚ
deriving DecidableEq, Repr

structure FareRow where
  id : Nat
  service_id : Option Nat
  journey_date : String
  seat_category : String
  fare : ℚ
  available_seats : Nat
  starting_price : Option ℚ
  scraped_at : Nat
deriving DecidableEq, Repr

structure SessionRow where
  id : Nat
  route_id : Option Nat
  journey_date : String
  total_buses_found : Nat
  successful_scrapes : Nat
  session_start : Nat
  session_end : Option Nat
  status : String
deriving DecidableEq, Repr

structure DB where
  routes : List RouteRow
  operators : List OperatorRow
  services : List ServiceRow
  fares : List FareRow
  sessions : List SessionRow
  nextId : Nat
  now : Nat
deriving DecidableEq, Repr

/-- The empty database (fresh deployment). -/
def DB.empty : DB := ⟨[], [], [], [], [], 0, 0⟩

/-- Which storage operations the backend currently fails (the modelled
`except Exception` branches of `database_models.py`). -/
structure Failures where
  routeInsert : Bool
  operatorInsert : Bool
  serviceInsert : Bool
  fareInsert : Bool
  sessionInsert : Bool
deriving DecidableEq, Repr

/-- A healthy storage backend: no operation fails. -/
def noFail : Failures := ⟨false, false, false, false, false⟩

/-- Embedding of `DatabaseManager.insert_route`: get-or-create keyed by
the (source, destination) pair via `update_one` + `$setOnInsert` upsert;
on a storage fault the `except` branch returns `None`. -/
def insert_route (F : Failures) (source destination : String) (db : DB) :
    Option Nat × DB :=
  if F.routeInsert then (none, db)
  else
    match db.routes.find? (fun r => r.source = source ∧ r.destination = destination) with
    | some r => (some r.id, db)
    | none =>
      (some db.nextId,
       { db with routes := db.routes ++ [⟨db.nextId, source, destination⟩],
                 nextId := db.nextId + 1 })

/-- Embedding of `DatabaseManager.insert_operator`: get-or-create keyed by
name; the rating is stored only on creation (`$setOnInsert`). -/
def insert_operator (F : Failures) (name : String) (rating : Option ℚ) (db : DB) :
    Option Nat × DB :=
  if F.operatorInsert then (none, db)
  else
    match db.operators.find? (fun o => o.name = name) with
    | some o => (some o.id, db)
    | none =>
      (some db.nextId,
       { db with operators := db.operators ++ [⟨db.nextId, name, rating⟩],
                 nextId := db.nextId + 1 })

/-- Embedding of `DatabaseManager.insert_service`: always inserts a fresh
row (no deduplication). -/
def insert_service (F : Failures) (route_id : Option Nat) (operator_id : Nat)
    (bus_type departure_time arrival_time duration : String)
    (rating : Option ℚ) (db : DB) : Option Nat × DB :=
  if F.serviceInsert then (none, db)
  else
    (some db.nextId,
     { db with
         services := db.services ++
           [⟨db.nextId, route_id, operator_id, bus_type, departure_time,
             arrival_time, duration, rating⟩],
         nextId := db.nextId + 1 })

/-- Embedding of `DatabaseManager.insert_fare_data`: inserts one fare row
stamped with the current time. -/
def insert_fare_data (F : Failures) (service_id : Option Nat) (journey_date : String)
    (seat_category : String) (fare : ℚ) (available_seats : Nat)
    (starting_price : Option ℚ) (db : DB) : Option Nat × DB :=
  if F.fareInsert then (none, db)
  else
    (some db.nextId,
     { db with
         fares := db.fares ++
           [⟨db.nextId, service_id, journey_date, seat_category, fare,
             available_seats, starting_price, db.now⟩],
         nextId := db.nextId + 1 })

/-- Embedding of `DatabaseManager.start_scraping_session`: inserts an
active session row with zero counts. -/
def start_scraping_session (F : Failures) (route_id : Option Nat)
    (journey_date : String) (db : DB) : Option Nat × DB :=
  if F.sessionInsert then (none, db)
  else
    (some db.nextId,
     { db with
         sessions := db.sessions ++
           [⟨db.nextId, route_id, journey_date, 0, 0, db.now, none, "active"⟩],
         nextId := db.nextId + 1 })

/-- Embedding of `DatabaseManager.update_scraping_session` as called by the
orchestrator (all three optional arguments supplied): `$set` the counts and
status on the row with the given id, stamping `session_end` when the status
becomes `completed`.  An id of `none` (a failed `start_scraping_session`)
matches no row, like `update_one` with `_id = None`. -/
def update_scraping_session (session_id : Option Nat) (total_buses : Nat)
    (successful_scrapes : Nat) (status : String) (db : DB) : DB :=
  { db with
      sessions := db.sessions.map (fun s =>
        if some s.id = session_id then
          { s with
              total_buses_found := total_buses,
              successful_scrapes := successful_scrapes,
              status := status,
              session_end := if status = "completed" then some db.now else s.session_end }
        else s) }

/-! ### Ingestion (`data_manager.py`, `DataManager`) -/

/-- One entry of a bus observation's `detailed_fares` list; every field is
read with `.get(...)` by the code, hence `Option`. -/
structure FareDetail where
  seat_category : Option String
  fare : Option String
  available_seats : Option String
deriving DecidableEq, Repr

/-- One bus observation of the scrape payload (`bus_data` dictionary);
fields are read with `.get(...)`, hence `Option`; `detailed_fares` is read
with `.get('detailed_fares', [])`, so an absent list is the empty list. -/
structure BusData where
  operator_name : Option String
  rating : Option String
  bus_type : Option String
  departure_time : Option String
  arrival_time : Option String
  duration : Option String
  starting_price : Option String
  seats_available : Option String
  detailed_fares : List FareDetail
deriving DecidableEq, Repr

/-- The scrape payload handed to `process_scraping_results` (its `route`,
`journey_date` and `buses` keys are accessed unconditionally). -/
structure ScrapeResults where
  route : String
  journey_date : String
  buses : List BusData
deriving DecidableEq, Repr

/-- The statistics dictionary returned by `process_scraping_results`. -/
structure Stats where
  route_processed : Bool
  total_buses : Nat
  successfully_stored : Nat
  errors : List String
deriving DecidableEq, Repr

/-- Python's `route_string.split(' to ')`: cut at each non-overlapping
occurrence of the separator `" to "`, scanning left to right. -/
def splitTo : List Char → List (List Char)
  | ' ' :: 't' :: 'o' :: ' ' :: rest => [] :: splitTo rest
  | c :: cs =>
    match splitTo cs with
    | [] => [[c]]
    | h :: t => (c :: h) :: t
  | [] => [[]]

/-- Python's `str.strip()`: drop leading and trailing whitespace. -/
def pyStrip (l : List Char) : List Char :=
  ((l.dropWhile Char.isWhitespace).reverse.dropWhile Char.isWhitespace).reverse

/-- Embedding of `DataManager._parse_route_info`: succeeds exactly when
splitting on the literal separator `" to "` yields two parts (the
separator occurs exactly once), returning both parts stripped. -/
def parse_route_info (route_string : String) : Option (String × String) :=
  match splitTo route_string.data with
  | [a, b] => some ((pyStrip a).asString, (pyStrip b).asString)
  | _ => none

/-- The body of the `for fare_detail in detailed_fares` loop of
`_store_bus_data`: parse the fare, and insert a FareData row exactly when
the parse yields a strictly positive number. -/
def fareStep (F : Failures) (service_id : Option Nat) (journey_date : String)
    (starting_price : Option ℚ) (d : DB) (fd : FareDetail) : DB :=
  match extract_price fd.fare with
  | some f =>
    if 0 < f then
      (insert_fare_data F service_id journey_date
        (fd.seat_category.getD "Unknown") f
        ((extract_seats fd.available_seats).getD 0) starting_price d).2
    else d
  | none => d

/-- Embedding of `DataManager._store_bus_data`: resolve the operator
(returning `False` when that yields no id), always write a Service row,
then write FareData rows per the detailed-fares/starting-price policy.
Every storage call catches its own faults, so the surrounding
`try/except` of the Python code is unreachable and the function returns
`True` whenever the operator id resolved. -/
def store_bus_data (F : Failures) (bus : BusData) (route_id : Option Nat)
    (journey_date : String) (db : DB) : Bool × DB :=
  let rating := extract_rating bus.rating
  match insert_operator F (bus.operator_name.getD "Unknown") rating db with
  | (none, db1) => (false, db1)
  | (some operator_id, db1) =>
    let (service_id, db2) :=
      insert_service F route_id operator_id (bus.bus_type.getD "Unknown")
        (bus.departure_time.getD "") (bus.arrival_time.getD "")
        (bus.duration.getD "") rating db1
    let starting_price := extract_price bus.starting_price
    if bus.detailed_fares.isEmpty then
      match starting_price with
      | some p =>
        if 0 < p then
          let seats := extract_seats bus.seats_available
          (true, (insert_fare_data F service_id journey_date "Standard" p
                    (seats.getD 0) starting_price db2).2)
        else (true, db2)
      | none => (true, db2)
    else
      (true, bus.detailed_fares.foldl
        (fareStep F service_id journey_date starting_price) db2)

/-- The body of the `for bus_data in scrape_results['buses']` loop of
`process_scraping_results`: store the observation and count it when the
writer reports success. -/
def busStep (F : Failures) (route_id : Option Nat) (journey_date : String)
    (acc : Nat × DB) (bus : BusData) : Nat × DB :=
  let (ok, d) := store_bus_data F bus route_id journey_date acc.2
  (if ok then acc.1 + 1 else acc.1, d)

/-- Embedding of `DataManager.process_scraping_results`: parse the route
label (one recorded error and no further processing when that fails),
resolve the route, start a session, store every bus observation in order
counting the successes, finish the session, and report the stats.  All
storage faults are caught inside the storage layer, so the per-bus
`except` branch and the outer `except` branch are unreachable and the
`errors` list stays empty on the parsed path. -/
def process_scraping_results (F : Failures) (sr : ScrapeResults) (db : DB) :
    Stats × DB :=
  match parse_route_info sr.route with
  | none => (⟨false, 0, 0, ["Could not parse route information"]⟩, db)
  | some (source, destination) =>
    let (route_id, db1) := insert_route F source destination db
    let (session_id, db2) := start_scraping_session F route_id sr.journey_date db1
    let total := sr.buses.length
    let (stored, db3) := sr.buses.foldl (busStep F route_id sr.journey_date) (0, db2)
    let db4 := update_scraping_session session_id total stored "completed" db3
    (⟨true, total, stored, []⟩, db4)

/-! ### Orderings used by the analytics layer

Python's `sorted` on date strings and MongoDB's `$sort` on string fields
both compare strings lexicographically by code point, modelled as
`List.Lex (· < ·)` on the underlying character list. -/

/-- Strict lexicographic code-point order on strings. -/
def dateLt (a b : String) : Prop := List.Lex (· < ·) a.data b.data

instance (a b : String) : Decidable (dateLt a b) := by
  unfold dateLt; infer_instance

/-- Reflexive closure of `dateLt`: the ascending order `sorted` produces. -/
def dateLe (a b : String) : Prop := dateLt a b ∨ a = b

instance (a b : String) : Decidable (dateLe a b) :=
  inferInstanceAs (Decidable (dateLt a b ∨ a = b))

lemma lex_tricho (a b : List Char) :
    List.Lex (· < ·) a b ∨ a = b ∨ List.Lex (· < ·) b a :=
  trichotomous_of _ a b

lemma data_inj {a b : String} (h : a.data = b.data) : a = b :=
  congrArg String.mk h

lemma dateLt_trichotomy (a b : String) : dateLt a b ∨ a = b ∨ dateLt b a := by
  rcases lex_tricho a.data b.data with h | h | h
  · exact Or.inl h
  · exact Or.inr (Or.inl (data_inj h))
  · exact Or.inr (Or.inr h)

lemma dateLt_asymm {a b : String} (h : dateLt a b) : ¬ dateLt b a :=
  asymm_of (List.Lex (· < ·)) h

lemma dateLt_trans {a b c : String} (h1 : dateLt a b) (h2 : dateLt b c) :
    dateLt a c :=
  trans_of (List.Lex (· < ·)) h1 h2

instance : IsTotal String dateLe where
  total a b := by
    rcases dateLt_trichotomy a b with h | h | h
    · exact Or.inl (Or.inl h)
    · exact Or.inl (Or.inr h)
    · exact Or.inr (Or.inl h)

instance : IsTrans String dateLe where
  trans a b c h1 h2 := by
    rcases h1 with h1 | rfl
    · rcases h2 with h2 | rfl
      · exact Or.inl (dateLt_trans h1 h2)
      · exact Or.inl h1
    · exact h2

instance : IsAntisymm String dateLe where
  antisymm a b h1 h2 := by
    rcases h1 with h1 | rfl
    · rcases h2 with h2 | rfl
      · exact absurd h2 (dateLt_asymm h1)
      · rfl
    · rfl

/-- One record of the fare-history query result (`$project` stage of
`get_route_fare_history`). -/
structure HistRec where
  journey_date : String
  operator_name : String
  bus_type : String
  seat_category : String
  fare : ℚ
  available_seats : Nat
  scraped_at : Nat
deriving DecidableEq, Repr

/-- The `$sort` key of `get_route_fare_history`: journey date descending,
then fare ascending. -/
def histRel (a b : HistRec) : Prop :=
  dateLt b.journey_date a.journey_date ∨
    (a.journey_date = b.journey_date ∧ a.fare ≤ b.fare)

instance (a b : HistRec) : Decidable (histRel a b) :=
  inferInstanceAs (Decidable (dateLt b.journey_date a.journey_date ∨
    (a.journey_date = b.journey_date ∧ a.fare ≤ b.fare)))

instance : IsTotal HistRec histRel where
  total a b := by
    rcases dateLt_trichotomy a.journey_date b.journey_date with h | h | h
    · exact Or.inr (Or.inl h)
    · rcases le_total a.fare b.fare with hf | hf
      · exact Or.inl (Or.inr ⟨h, hf⟩)
      · exact Or.inr (Or.inr ⟨h.symm, hf⟩)
    · exact Or.inl (Or.inl h)

instance : IsTrans HistRec histRel where
  trans a b c h1 h2 := by
    rcases h1 with h1 | ⟨e1, f1⟩
    · rcases h2 with h2 | ⟨e2, f2⟩
      · exact Or.inl (dateLt_trans h2 h1)
      · exact Or.inl (e2 ▸ h1)
    · rcases h2 with h2 | ⟨e2, f2⟩
      · exact Or.inl (by rw [e1]; exact h2)
      · exact Or.inr ⟨e1.trans e2, f1.trans f2⟩

/-! ### Analytics queries (`database_models.py` and `data_manager.py`) -/

/-- The joined, matched (but not yet sorted) fare-history rows: the
`$lookup`/`$unwind` stages follow `service_id → bus_services`,
`route_id → routes` and `operator_id → bus_operators`, then the `$match`
stage keeps the requested route within the lookback window. -/
def joinHist (db : DB) (source destination : String) (days_back : Nat) :
    List HistRec :=
  db.fares.filterMap (fun f =>
    match f.service_id.bind (fun sid => db.services.find? (fun s => s.id = sid)) with
    | none => none
    | some svc =>
      match svc.route_id.bind (fun rid => db.routes.find? (fun r => r.id = rid)) with
      | none => none
      | some rt =>
        match db.operators.find? (fun o => o.id = svc.operator_id) with
        | none => none
        | some op =>
          if rt.source = source ∧ rt.destination = destination ∧
              db.now - days_back ≤ f.scraped_at then
            some ⟨f.journey_date, op.name, svc.bus_type, f.seat_category,
                  f.fare, f.available_seats, f.scraped_at⟩
          else none)

/-- Embedding of `DatabaseManager.get_route_fare_history`: the joined and
matched rows sorted by journey date descending, fare ascending. -/
def get_route_fare_history (db : DB) (source destination : String)
    (days_back : Nat := 30) : List HistRec :=
  List.insertionSort histRel (joinHist db source destination days_back)

/-- Mean of a list of rationals (`sum(fares) / len(fares)` and the `$avg`
accumulator). -/
def listMean (l : List ℚ) : ℚ := l.sum / l.length

/-- The `$group` result of `get_demand_analysis`. -/
structure DemandStats where
  avg_fare : ℚ
  min_fare : ℚ
  max_fare : ℚ
  avg_available_seats : ℚ
  total_records : Nat
deriving DecidableEq, Repr

/-- The `$match` condition of `get_demand_analysis` (joins through
`bus_services` and `routes`, fixed 30-day lookback). -/
def demandMatch (db : DB) (source destination : String) (f : FareRow) : Bool :=
  match f.service_id.bind (fun sid => db.services.find? (fun s => s.id = sid)) with
  | none => false
  | some svc =>
    match svc.route_id.bind (fun rid => db.routes.find? (fun r => r.id = rid)) with
    | none => false
    | some rt =>
      rt.source = source ∧ rt.destination = destination ∧ db.now - 30 ≤ f.scraped_at

/-- Embedding of `DatabaseManager.get_demand_analysis`: aggregate the
matched rows, or `none` (the empty dictionary) when no row matches. -/
def get_demand_analysis (db : DB) (source destination : String) :
    Option DemandStats :=
  match db.fares.filter (demandMatch db source destination) with
  | [] => none
  | r :: rs =>
    some ⟨listMean ((r :: rs).map (·.fare)),
          (rs.map (·.fare)).foldl min r.fare,
          (rs.map (·.fare)).foldl max r.fare,
          listMean ((r :: rs).map (fun f => (f.available_seats : ℚ))),
          (r :: rs).length⟩

/-! ### Price trends (`data_manager.py`, `_calculate_price_trends`) -/

/-- One step of the `fares_by_date` dictionary accumulation: append the
fare to the entry of its date, creating the entry at the end (Python
dictionaries preserve insertion order). -/
def addFare (acc : List (String × List ℚ)) (d : String) (f : ℚ) :
    List (String × List ℚ) :=
  match acc with
  | [] => [(d, [f])]
  | (d0, fs) :: rest =>
    if d0 = d then (d0, fs ++ [f]) :: rest else (d0, fs) :: addFare rest d f

/-- The `fares_by_date` dictionary of `_calculate_price_trends`: fares
grouped by journey date, keys in first-occurrence order. -/
def groupFares (h : List HistRec) : List (String × List ℚ) :=
  h.foldl (fun acc r => addFare acc r.journey_date r.fare) []

/-- Dictionary lookup in an association list (first matching key). -/
def lookupG {α : Type} (g : List (String × α)) (d : String) : Option α :=
  match g with
  | [] => none
  | (k, v) :: rest => if k = d then some v else lookupG rest d

/-- Round-half-to-even to an integer (Python's `round`). -/
def rhe (q : ℚ) : ℤ :=
  let f := ⌊q⌋
  let r := q - f
  if r < 1/2 then f
  else if 1/2 < r then f + 1
  else if f % 2 = 0 then f else f + 1

/-- Python's `round(x, 2)`: round half-to-even at two decimal places. -/
def round2 (q : ℚ) : ℚ := (rhe (q * 100) : ℚ) / 100

/-- The `trend_direction` conditional expression (evaluated on the
unrounded `trend_percent`). -/
def trendDir (tp : ℚ) : String :=
  if 0 < tp then "up" else if tp < 0 then "down" else "stable"

/-- The dictionary returned by `_calculate_price_trends` on its normal
path. -/
structure Trend where
  average_fares_by_date : List (String × ℚ)
  trend_percentage : ℚ
  trend_direction : String
deriving DecidableEq, Repr

/-- Embedding of `DataManager._calculate_price_trends`: `none` models the
empty dictionary `{}`, returned both for an empty history and on the
`except` path — which is reached exactly when the second-last date's mean
fare is zero and the day-over-day division raises `ZeroDivisionError`. -/
def calc_price_trends (h : List HistRec) : Option Trend :=
  if h.isEmpty then none
  else
    let avgFares := (groupFares h).map (fun p => (p.1, listMean p.2))
    let sortedDates := List.insertionSort dateLe (avgFares.map Prod.fst)
    match sortedDates.reverse with
    | dLast :: dPrev :: _ =>
      let recentAvg := (lookupG avgFares dLast).getD 0
      let previousAvg := (lookupG avgFares dPrev).getD 0
      if previousAvg = 0 then none
      else
        let tp := ((recentAvg - previousAvg) / previousAvg) * 100
        some ⟨avgFares, round2 tp, trendDir tp⟩
    | _ => some ⟨avgFares, round2 0, trendDir 0⟩

/-- The analytics dictionary built by `DataManager.get_route_analytics`. -/
structure Analytics where
  route : String
  total_records : Nat
  demand_analysis : Option DemandStats
  recent_fares : List HistRec
  price_trends : Option Trend
deriving DecidableEq, Repr

/-- Embedding of `DataManager.get_route_analytics`. -/
def get_route_analytics (db : DB) (source destination : String)
    (days_back : Nat := 30) : Analytics :=
  let fare_history := get_route_fare_history db source destination days_back
  ⟨source ++ " to " ++ destination,
   fare_history.length,
   get_demand_analysis db source destination,
   fare_history.take 10,
   calc_price_trends fare_history⟩

/-! ### Lemmas about the field extractors -/

lemma firstNumeral_eq_none {l : List Char} (h : ∀ c ∈ l, c.isDigit = false) :
    firstNumeral l = none := by
  induction l with
  | nil => rfl
  | cons c cs ih =>
    have hc : c.isDigit = false := h c (List.mem_cons_self c cs)
    simp only [firstNumeral, hc, Bool.false_eq_true, if_false]
    exact ih (fun x hx => h x (List.mem_cons_of_mem c hx))

lemma numVal_nonneg (ip fp : List Char) : 0 ≤ numVal ip fp := by
  unfold numVal
  split
  · positivity
  · positivity

lemma extract_price_some (str : String) :
    extract_price (some str) =
      if str = "" ∨ str = "N/A" then none
      else
        match firstNumeral (str.data.filter (· != ',')) with
        | some (ip, fp) => some (numVal ip fp)
        | none => none := rfl

lemma extract_rating_some (str : String) :
    extract_rating (some str) =
      if str = "" ∨ str = "N/A" then none
      else
        match firstNumeral str.data with
        | some (ip, fp) =>
          if 0 ≤ numVal ip fp ∧ numVal ip fp ≤ 5 then some (numVal ip fp) else none
        | none => none := rfl

lemma extract_price_nonneg (s : String) (q : ℚ)
    (h : extract_price (some s) = some q) : 0 ≤ q := by
  rw [extract_price_some] at h
  by_cases hs : s = "" ∨ s = "N/A"
  · rw [if_pos hs] at h; cases h
  · rw [if_neg hs] at h
    split at h
    · cases h; exact numVal_nonneg _ _
    · cases h

lemma extract_rating_range (s : String) (q : ℚ)
    (h : extract_rating (some s) = some q) : 0 ≤ q ∧ q ≤ 5 := by
  rw [extract_rating_some] at h
  by_cases hs : s = "" ∨ s = "N/A"
  · rw [if_pos hs] at h; cases h
  · rw [if_neg hs] at h
    split at h
    · rename_i ip fp heq
      by_cases hr : 0 ≤ numVal ip fp ∧ numVal ip fp ≤ 5
      · rw [if_pos hr] at h; cases h; exact hr
      · rw [if_neg hr] at h; cases h
    · cases h

lemma extract_price_no_digit (s : String) (h : ∀ c ∈ s.data, c.isDigit = false) :
    extract_price (some s) = none := by
  rw [extract_price_some]
  by_cases hs : s = "" ∨ s = "N/A"
  · rw [if_pos hs]
  · rw [if_neg hs, firstNumeral_eq_none]
    intro c hc
    exact h c (List.mem_of_mem_filter hc)

lemma extract_rating_no_digit (s : String) (h : ∀ c ∈ s.data, c.isDigit = false) :
    extract_rating (some s) = none := by
  rw [extract_rating_some]
  by_cases hs : s = "" ∨ s = "N/A"
  · rw [if_pos hs]
  · rw [if_neg hs, firstNumeral_eq_none h]

/-- CLAIM C8: for every input, `extract_price` never raises (it is a total
function); empty, null and literal "N/A" inputs and digit-free strings
give nothing; a successful parse is a non-negative number with no upper
range restriction; commas are stripped before the first numeral substring
is parsed, so "₹1,234.50" yields 1234.50. -/
theorem claim_C8 :
    extract_price none = none ∧
    extract_price (some "") = none ∧
    extract_price (some "N/A") = none ∧
    (∀ s : String, (∀ c ∈ s.data, c.isDigit = false) →
      extract_price (some s) = none) ∧
    (∀ (s : String) (q : ℚ), extract_price (some s) = some q → 0 ≤ q) ∧
    extract_price (some "₹1,234.50") = some (1234.5 : ℚ) := by
  refine ⟨rfl, by decide, by decide, extract_price_no_digit, extract_price_nonneg, ?_⟩
  rw [show extract_price (some "₹1,234.50") =
        some (numVal ['1', '2', '3', '4'] ['5', '0']) from rfl]
  norm_num [numVal, show digitsToNat ['1', '2', '3', '4'] = 1234 from by decide,
    show digitsToNat ['5', '0'] = 50 from by decide]

/-- Witness for C8: a digit-free string at a concrete input. -/
theorem claim_C8_witness : extract_price (some "no price here") = none :=
  claim_C8.2.2.2.1 "no price here" (by decide)

/-- CLAIM C9: for every input, `extract_rating` never raises (it is a
total function); empty, null, "N/A" and digit-free strings give nothing;
a returned value always lies in the closed range [0, 5]; an out-of-range
parse such as "6.0" gives nothing; "4.2 stars" yields 4.2. -/
theorem claim_C9 :
    extract_rating none = none ∧
    extract_rating (some "") = none ∧
    extract_rating (some "N/A") = none ∧
    (∀ s : String, (∀ c ∈ s.data, c.isDigit = false) →
      extract_rating (some s) = none) ∧
    (∀ (s : String) (q : ℚ), extract_rating (some s) = some q → 0 ≤ q ∧ q ≤ 5) ∧
    extract_rating (some "6.0") = none ∧
    extract_rating (some "4.2 stars") = some (4.2 : ℚ) := by
  refine ⟨rfl, by decide, by decide, extract_rating_no_digit, extract_rating_range, ?_, ?_⟩
  · rw [show extract_rating (some "6.0") =
          (if 0 ≤ numVal ['6'] ['0'] ∧ numVal ['6'] ['0'] ≤ 5
           then some (numVal ['6'] ['0']) else none) from rfl, if_neg]
    norm_num [numVal, show digitsToNat ['6'] = 6 from by decide,
      show digitsToNat ['0'] = 0 from by decide]
  · rw [show extract_rating (some "4.2 stars") =
          (if 0 ≤ numVal ['4'] ['2'] ∧ numVal ['4'] ['2'] ≤ 5
           then some (numVal ['4'] ['2']) else none) from rfl, if_pos]
    · norm_num [numVal, show digitsToNat ['4'] = 4 from by decide,
        show digitsToNat ['2'] = 2 from by decide]
    · norm_num [numVal, show digitsToNat ['4'] = 4 from by decide,
        show digitsToNat ['2'] = 2 from by decide]

/-- Witness for C9: a digit-free string and a parsed rating at concrete
inputs. -/
theorem claim_C9_witness :
    extract_rating (some "unrated") = none ∧
    (0 ≤ (4.2 : ℚ) ∧ (4.2 : ℚ) ≤ 5) :=
  ⟨claim_C9.2.2.2.1 "unrated" (by decide),
   claim_C9.2.2.2.2.1 "4.2 stars" (4.2 : ℚ) claim_C9.2.2.2.2.2.2⟩

/-- CLAIM C10: route analytics report `recent_fares` as exactly the first
10 records of the full fare history (all of them when fewer exist), while
`total_records` counts the full untruncated history, so `recent_fares`
never exceeds 10 entries. -/
theorem claim_C10 (db : DB) (source destination : String) (n : Nat) :
    (get_route_analytics db source destination n).recent_fares =
      (get_route_fare_history db source destination n).take 10 ∧
    (get_route_analytics db source destination n).total_records =
      (get_route_fare_history db source destination n).length ∧
    (get_route_analytics db source destination n).recent_fares.length ≤ 10 ∧
    ((get_route_fare_history db source destination n).length ≤ 10 →
      (get_route_analytics db source destination n).recent_fares =
        get_route_fare_history db source destination n) := by
  refine ⟨rfl, rfl, ?_, ?_⟩
  · simp only [get_route_analytics, List.length_take]
    omega
  · intro h
    simp only [get_route_analytics]
    exact List.take_of_length_le h

/-- Witness for C10: on the empty database the full history has at most
10 records, so `recent_fares` is the whole history. -/
theorem claim_C10_witness :
    (get_route_analytics DB.empty "Pune" "Mumbai" 30).recent_fares =
      get_route_fare_history DB.empty "Pune" "Mumbai" 30 :=
  (claim_C10 DB.empty "Pune" "Mumbai" 30).2.2.2 (by decide)

/-! ### Lemmas about the reference resolvers -/

lemma insert_route_noFail (source destination : String) (db : DB) :
    insert_route noFail source destination db =
      match db.routes.find?
          (fun r => r.source = source ∧ r.destination = destination) with
      | some r => (some r.id, db)
      | none =>
        (some db.nextId,
         { db with routes := db.routes ++ [⟨db.nextId, source, destination⟩],
                   nextId := db.nextId + 1 }) := rfl

lemma insert_operator_noFail (name : String) (rating : Option ℚ) (db : DB) :
    insert_operator noFail name rating db =
      match db.operators.find? (fun o => o.name = name) with
      | some o => (some o.id, db)
      | none =>
        (some db.nextId,
         { db with operators := db.operators ++ [⟨db.nextId, name, rating⟩],
                   nextId := db.nextId + 1 }) := rfl

lemma eq_of_mem_of_length_le_one {α : Type} {l : List α} (h : l.length ≤ 1)
    {a b : α} (ha : a ∈ l) (hb : b ∈ l) : a = b := by
  rcases l with _ | ⟨x, _ | ⟨y, t⟩⟩
  · cases ha
  · rw [List.mem_singleton] at ha hb
    rw [ha, hb]
  · simp at h

lemma find?_append_of_none {α : Type} {p : α → Bool} {l₁ : List α}
    (h : l₁.find? p = none) (l₂ : List α) :
    (l₁ ++ l₂).find? p = l₂.find? p := by
  induction l₁ with
  | nil => rfl
  | cons a t ih =>
    rw [List.find?_eq_none] at h
    have ha : ¬ p a = true := h a (List.mem_cons_self a t)
    rw [List.cons_append, List.find?_cons_of_neg _ ha]
    exact ih (List.find?_eq_none.mpr (fun x hx => h x (List.mem_cons_of_mem a hx)))

/-- CLAIM C6: the get-or-create resolvers are idempotent.  Starting from a
database whose unique indexes hold (at most one Route row per pair, at
most one Operator row per name), resolving the same route twice returns
the same identity and leaves the store unchanged with exactly one Route
row for the pair; resolving an operator name that already exists returns
the stored row's identity and changes nothing, whatever rating the later
call supplies. -/
theorem claim_C6 (source destination nm : String) (r2 : Option ℚ) (db : DB)
    (hroutes : (db.routes.filter
      (fun r => r.source = source ∧ r.destination = destination)).length ≤ 1)
    (hops : (db.operators.filter (fun o => o.name = nm)).length ≤ 1) :
    (insert_route noFail source destination
        (insert_route noFail source destination db).2).1 =
      (insert_route noFail source destination db).1 ∧
    (insert_route noFail source destination
        (insert_route noFail source destination db).2).2 =
      (insert_route noFail source destination db).2 ∧
    ((insert_route noFail source destination db).2.routes.filter
        (fun r => r.source = source ∧ r.destination = destination)).length = 1 ∧
    (∀ op ∈ db.operators, op.name = nm →
      insert_operator noFail nm r2 db = (some op.id, db)) := by
  have hop : ∀ op ∈ db.operators, op.name = nm →
      insert_operator noFail nm r2 db = (some op.id, db) := by
    intro op hmem hname
    rw [insert_operator_noFail]
    rcases hf : db.operators.find? (fun o => o.name = nm) with _ | o
    · rw [List.find?_eq_none] at hf
      exact absurd (by simp [hname]) (hf op hmem)
    · have hpo := List.find?_some hf
      have h1 : o ∈ db.operators.filter (fun o => o.name = nm) :=
        List.mem_filter.mpr ⟨List.mem_of_find?_eq_some hf, hpo⟩
      have h2 : op ∈ db.operators.filter (fun o => o.name = nm) :=
        List.mem_filter.mpr ⟨hmem, by simp [hname]⟩
      simp only [hf]
      rw [eq_of_mem_of_length_le_one hops h1 h2]
  rcases hfind : db.routes.find?
      (fun r => r.source = source ∧ r.destination = destination) with _ | r
  · -- the pair is new: the first call inserts, the second finds the new row
    have hone := List.find?_eq_none.mp hfind
    have hnew : (fun r => decide (r.source = source ∧ r.destination = destination))
        (⟨db.nextId, source, destination⟩ : RouteRow) = true := by simp
    have hfind2 : ((db.routes ++ [(⟨db.nextId, source, destination⟩ : RouteRow)]).find?
        (fun r => r.source = source ∧ r.destination = destination)) =
        some (⟨db.nextId, source, destination⟩ : RouteRow) := by
      rw [find?_append_of_none hfind]
      simp
    have e1 : insert_route noFail source destination db =
        (some db.nextId,
         { db with routes := db.routes ++ [(⟨db.nextId, source, destination⟩ : RouteRow)],
                   nextId := db.nextId + 1 }) := by
      rw [insert_route_noFail, hfind]
    have e2 : insert_route noFail source destination
        { db with routes := db.routes ++ [(⟨db.nextId, source, destination⟩ : RouteRow)],
                  nextId := db.nextId + 1 } =
        (some db.nextId,
         { db with routes := db.routes ++ [(⟨db.nextId, source, destination⟩ : RouteRow)],
                   nextId := db.nextId + 1 }) := by
      rw [insert_route_noFail]
      simp only [hfind2]
    refine ⟨?_, ?_, ?_, hop⟩
    · rw [e1]
      rw [show ((some db.nextId,
          { db with routes := db.routes ++ [(⟨db.nextId, source, destination⟩ : RouteRow)],
                    nextId := db.nextId + 1 }) : Option Nat × DB).2 =
        { db with routes := db.routes ++ [(⟨db.nextId, source, destination⟩ : RouteRow)],
                  nextId := db.nextId + 1 } from rfl, e2]
    · rw [e1]
      rw [show ((some db.nextId,
          { db with routes := db.routes ++ [(⟨db.nextId, source, destination⟩ : RouteRow)],
                    nextId := db.nextId + 1 }) : Option Nat × DB).2 =
        { db with routes := db.routes ++ [(⟨db.nextId, source, destination⟩ : RouteRow)],
                  nextId := db.nextId + 1 } from rfl, e2]
    · rw [e1]
      have hnil : db.routes.filter
          (fun r => r.source = source ∧ r.destination = destination) = [] :=
        List.filter_eq_nil_iff.mpr hone
      simp only [List.filter_append, hnil, List.filter_cons, hnew]
      simp
  · -- the pair exists: both calls return the stored row unchanged
    have hpr := List.find?_some hfind
    have h1 : r ∈ db.routes.filter
        (fun r => r.source = source ∧ r.destination = destination) :=
      List.mem_filter.mpr ⟨List.mem_of_find?_eq_some hfind, hpr⟩
    have e1 : insert_route noFail source destination db = (some r.id, db) := by
      rw [insert_route_noFail, hfind]
    refine ⟨?_, ?_, ?_, hop⟩
    · rw [e1, show ((some r.id, db) : Option Nat × DB).2 = db from rfl, e1]
    · rw [e1, show ((some r.id, db) : Option Nat × DB).2 = db from rfl, e1]
    · rw [e1, show ((some r.id, db) : Option Nat × DB).2 = db from rfl]
      have hpos : 0 < (db.routes.filter
          (fun r => r.source = source ∧ r.destination = destination)).length :=
        List.length_pos_of_mem h1
      omega

/-- Witness for C6 at a concrete store that already holds the operator
"VRL" with rating 4: both hypotheses hold and the conclusion follows. -/
theorem claim_C6_witness :
    (insert_route noFail "Bangalore" "Hyderabad"
        (insert_route noFail "Bangalore" "Hyderabad"
          ⟨[], [⟨0, "VRL", some 4⟩], [], [], [], 1, 0⟩).2).1 =
      (insert_route noFail "Bangalore" "Hyderabad"
        ⟨[], [⟨0, "VRL", some 4⟩], [], [], [], 1, 0⟩).1 ∧
    (insert_route noFail "Bangalore" "Hyderabad"
        (insert_route noFail "Bangalore" "Hyderabad"
          ⟨[], [⟨0, "VRL", some 4⟩], [], [], [], 1, 0⟩).2).2 =
      (insert_route noFail "Bangalore" "Hyderabad"
        ⟨[], [⟨0, "VRL", some 4⟩], [], [], [], 1, 0⟩).2 ∧
    ((insert_route noFail "Bangalore" "Hyderabad"
        ⟨[], [⟨0, "VRL", some 4⟩], [], [], [], 1, 0⟩).2.routes.filter
        (fun r => r.source = "Bangalore" ∧ r.destination = "Hyderabad")).length = 1 ∧
    (∀ op ∈ (⟨[], [⟨0, "VRL", some 4⟩], [], [], [], 1, 0⟩ : DB).operators,
      op.name = "VRL" →
      insert_operator noFail "VRL" (some 1) ⟨[], [⟨0, "VRL", some 4⟩], [], [], [], 1, 0⟩ =
        (some op.id, ⟨[], [⟨0, "VRL", some 4⟩], [], [], [], 1, 0⟩)) :=
  claim_C6 "Bangalore" "Hyderabad" "VRL" (some 1)
    ⟨[], [⟨0, "VRL", some 4⟩], [], [], [], 1, 0⟩ (by decide) (by decide)

/-! ### Lemmas about the fare record writer and the orchestrator -/

lemma insert_service_noFail (rid : Option Nat) (opid : Nat)
    (btype dep arr dur : String) (ra : Option ℚ) (db : DB) :
    insert_service noFail rid opid btype dep arr dur ra db =
      (some db.nextId,
       { db with
           services := db.services ++ [⟨db.nextId, rid, opid, btype, dep, arr, dur, ra⟩],
           nextId := db.nextId + 1 }) := rfl

lemma insert_fare_data_noFail (svc : Option Nat) (jd cat : String) (fare : ℚ)
    (seats : Nat) (sp : Option ℚ) (db : DB) :
    insert_fare_data noFail svc jd cat fare seats sp db =
      (some db.nextId,
       { db with
           fares := db.fares ++ [⟨db.nextId, svc, jd, cat, fare, seats, sp, db.now⟩],
           nextId := db.nextId + 1 }) := rfl

/-- The projection of a FareData row the write-policy claims speak about:
its journey date, seat category and fare. -/
def fareProj (f : FareRow) : String × String × ℚ :=
  (f.journey_date, f.seat_category, f.fare)

/-- Modelled from the specification's write policy (§4.3): the per-entry
FareData projections dictated for a detailed-fares list — one row per
entry whose fare parses to a strictly positive number. -/
def specDetailRows (jd : String) (l : List FareDetail) :
    List (String × String × ℚ) :=
  l.filterMap (fun fd =>
    match extract_price fd.fare with
    | some f => if 0 < f then some (jd, fd.seat_category.getD "Unknown", f) else none
    | none => none)

/-- Modelled from the specification's write policy (§4.3): the FareData
projections dictated for one bus observation — the per-entry rows when
detailed fares exist, else a single "Standard" row when the top-level
starting price parses to a strictly positive number, else none. -/
def specFareRows (bus : BusData) (jd : String) : List (String × String × ℚ) :=
  if bus.detailed_fares.isEmpty then
    match extract_price bus.starting_price with
    | some p => if 0 < p then [(jd, "Standard", p)] else []
    | none => []
  else specDetailRows jd bus.detailed_fares

lemma fold_fareStep_spec (l : List FareDetail) (svc : Option Nat) (jd : String)
    (sp : Option ℚ) (d0 : DB) :
    (l.foldl (fareStep noFail svc jd sp) d0).fares.map fareProj =
      d0.fares.map fareProj ++ specDetailRows jd l ∧
    (l.foldl (fareStep noFail svc jd sp) d0).services = d0.services := by
  induction l generalizing d0 with
  | nil => simp [specDetailRows]
  | cons fd fds ih =>
    rw [List.foldl_cons]
    have harm : (fareStep noFail svc jd sp d0 fd).fares.map fareProj =
        d0.fares.map fareProj ++
          (match extract_price fd.fare with
           | some f =>
             if 0 < f then [(jd, fd.seat_category.getD "Unknown", f)] else []
           | none => []) ∧
        (fareStep noFail svc jd sp d0 fd).services = d0.services := by
      unfold fareStep
      rcases extract_price fd.fare with _ | f
      · simp
      · by_cases h0 : 0 < f
        · simp [h0, insert_fare_data_noFail, fareProj]
        · simp [h0]
    obtain ⟨hf, hs⟩ := ih (fareStep noFail svc jd sp d0 fd)
    refine ⟨?_, by rw [hs, harm.2]⟩
    rw [hf, harm.1, List.append_assoc]
    congr 1
    simp only [specDetailRows, List.filterMap_cons]
    rcases extract_price fd.fare with _ | f
    · rfl
    · by_cases h0 : 0 < f
      · simp [h0]
      · simp [h0]

lemma store_bus_data_spec (bus : BusData) (rid : Option Nat) (jd : String)
    (db : DB) :
    (store_bus_data noFail bus rid jd db).1 = true ∧
    (store_bus_data noFail bus rid jd db).2.services.length =
      db.services.length + 1 ∧
    (store_bus_data noFail bus rid jd db).2.fares.map fareProj =
      db.fares.map fareProj ++ specFareRows bus jd := by
  obtain ⟨oid, db1, hins, hsvc, hfare⟩ : ∃ oid db1,
      insert_operator noFail (bus.operator_name.getD "Unknown")
        (extract_rating bus.rating) db = (some oid, db1) ∧
      db1.services = db.services ∧ db1.fares = db.fares := by
    rw [insert_operator_noFail]
    cases db.operators.find?
        (fun o => o.name = bus.operator_name.getD "Unknown") with
    | none => exact ⟨_, _, rfl, rfl, rfl⟩
    | some o => exact ⟨_, _, rfl, rfl, rfl⟩
  unfold store_bus_data
  simp only [hins, insert_service_noFail]
  rcases hdf : bus.detailed_fares with _ | ⟨fd, fds⟩
  · rcases hsp : extract_price bus.starting_price with _ | p
    · simp [specFareRows, hdf, hsp, hsvc, hfare]
    · by_cases h0 : 0 < p
      · simp [specFareRows, hdf, hsp, h0, insert_fare_data_noFail, hsvc, hfare,
          fareProj]
      · simp [specFareRows, hdf, hsp, h0, hsvc, hfare]
  · have hfold := fold_fareStep_spec (fd :: fds) (some db1.nextId) jd
      (extract_price bus.starting_price)
      { db1 with
          services := db1.services ++
            [⟨db1.nextId, rid, oid, bus.bus_type.getD "Unknown",
              bus.departure_time.getD "", bus.arrival_time.getD "",
              bus.duration.getD "", extract_rating bus.rating⟩],
          nextId := db1.nextId + 1 }
    simp only [List.isEmpty_cons, Bool.false_eq_true, if_false]
    refine ⟨by trivial, ?_, ?_⟩
    · simp only [hfold.2]
      simp [hsvc]
    · simp only [hfold.1]
      simp only [specFareRows, hdf, List.isEmpty_cons, Bool.false_eq_true,
        if_false]
      simp [hfare]

/-- CLAIM C3: the fare record writer always reports success and writes
exactly one Service row; with a non-empty `detailed_fares` list it writes
one FareData row per entry whose fare parses strictly positive (others
are skipped); otherwise a single "Standard" row exactly when the
top-level starting price parses strictly positive; otherwise no FareData
row at all. -/
theorem claim_C3 (bus : BusData) (rid : Option Nat) (jd : String) (db : DB) :
    (store_bus_data noFail bus rid jd db).1 = true ∧
    (store_bus_data noFail bus rid jd db).2.services.length =
      db.services.length + 1 ∧
    (store_bus_data noFail bus rid jd db).2.fares.map fareProj =
      db.fares.map fareProj ++ specFareRows bus jd :=
  store_bus_data_spec bus rid jd db

lemma insert_route_services (s d : String) (db : DB) :
    (insert_route noFail s d db).2.services = db.services := by
  rw [insert_route_noFail]
  cases db.routes.find? (fun r => r.source = s ∧ r.destination = d) <;> rfl

lemma start_session_services (rid : Option Nat) (jd : String) (db : DB) :
    (start_scraping_session noFail rid jd db).2.services = db.services := rfl

lemma update_session_services (sid : Option Nat) (t s : Nat) (st : String)
    (db : DB) : (update_scraping_session sid t s st db).services = db.services :=
  rfl

lemma fold_busStep_spec (buses : List BusData) (rid : Option Nat) (jd : String)
    (n : Nat) (d : DB) :
    (buses.foldl (busStep noFail rid jd) (n, d)).1 = n + buses.length ∧
    (buses.foldl (busStep noFail rid jd) (n, d)).2.services.length =
      d.services.length + buses.length := by
  induction buses generalizing n d with
  | nil => simp
  | cons b bs ih =>
    rw [List.foldl_cons]
    have hb := store_bus_data_spec b rid jd d
    have hstep : busStep noFail rid jd (n, d) b =
        (n + 1, (store_bus_data noFail b rid jd d).2) := by
      unfold busStep
      rcases hsb : store_bus_data noFail b rid jd d with ⟨ok, d2⟩
      rw [hsb] at hb
      have hok : ok = true := hb.1
      subst hok
      simp
    rw [hstep]
    obtain ⟨h1, h2⟩ := ih (n + 1) (store_bus_data noFail b rid jd d).2
    refine ⟨by rw [h1, List.length_cons]; omega, ?_⟩
    rw [h2, hb.2.1, List.length_cons]
    omega

/-- Amended CLAIM C4: with healthy storage, every parsed payload yields
`total_buses` and `successfully_stored` both equal to the number of bus
observations, an empty error list, and one new Service row per
observation.  (As stated the claim is refuted by
`claim_C4_counterexample`: the success flag the orchestrator counts does
not witness a durable Service write — a failed Service insert is
swallowed and the observation still counts as stored.) -/
theorem claim_C4_amended (sr : ScrapeResults) (db : DB) (src dst : String)
    (h : parse_route_info sr.route = some (src, dst)) :
    (process_scraping_results noFail sr db).1.total_buses = sr.buses.length ∧
    (process_scraping_results noFail sr db).1.successfully_stored =
      sr.buses.length ∧
    (process_scraping_results noFail sr db).1.errors = [] ∧
    (process_scraping_results noFail sr db).2.services.length =
      db.services.length + sr.buses.length := by
  unfold process_scraping_results
  simp only [h]
  rcases hr : insert_route noFail src dst db with ⟨rid, db1⟩
  have hdb1 : db1.services = db.services := by
    have := insert_route_services src dst db
    rw [hr] at this
    exact this
  rcases hs : start_scraping_session noFail rid sr.journey_date db1 with ⟨sid, db2⟩
  have hdb2 : db2.services = db1.services := by
    have := start_session_services rid sr.journey_date db1
    rw [hs] at this
    exact this
  have hfold := fold_busStep_spec sr.buses rid sr.journey_date 0 db2
  rcases hf : sr.buses.foldl (busStep noFail rid sr.journey_date) (0, db2)
    with ⟨stored, db3⟩
  rw [hf] at hfold
  simp only at hfold
  refine ⟨by trivial, ?_, by trivial, ?_⟩
  · simpa using hfold.1
  · simp only [update_session_services]
    rw [hfold.2, hdb2, hdb1]

/-- Counterexample to CLAIM C4 as stated: when the storage backend fails
Service inserts, the observation is still counted as successfully stored
(the writer swallows the fault), yet no Service row was durably written —
so `successfully_stored` does not count Service writes. -/
theorem claim_C4_counterexample :
    (process_scraping_results ⟨false, false, true, false, false⟩
        ⟨"Pune to Mumbai", "2024-06-01",
         [⟨some "A Travels", none, none, none, none, none, none, none, []⟩]⟩
        DB.empty).1.successfully_stored = 1 ∧
    (process_scraping_results ⟨false, false, true, false, false⟩
        ⟨"Pune to Mumbai", "2024-06-01",
         [⟨some "A Travels", none, none, none, none, none, none, none, []⟩]⟩
        DB.empty).2.services = [] := by decide

/-- The end-to-end payload of the specification's scenario: three bus
observations, two with valid fares and one with an unparsable price and
no detailed fares. -/
def payload3 : ScrapeResults :=
  ⟨"Pune to Mumbai", "2024-06-01",
   [⟨some "A Travels", some "4.0", some "AC Seater", some "10:00", some "14:00",
     some "4h", some "500", some "20", []⟩,
    ⟨some "B Travels", none, some "Sleeper", some "21:00", some "05:00",
     some "8h", none, none, [⟨some "Seater", some "650", some "5"⟩]⟩,
    ⟨some "C Travels", none, some "Volvo", some "11:00", some "15:00",
     some "4h", some "N/A", none, []⟩]⟩

/-- Witness for the amended C4 at the specification's 3-observation
scenario: total 3, stored 3, no errors, three Service rows. -/
theorem claim_C4_witness :
    (process_scraping_results noFail payload3 DB.empty).1.total_buses =
      payload3.buses.length ∧
    (process_scraping_results noFail payload3 DB.empty).1.successfully_stored =
      payload3.buses.length ∧
    (process_scraping_results noFail payload3 DB.empty).1.errors = [] ∧
    (process_scraping_results noFail payload3 DB.empty).2.services.length =
      DB.empty.services.length + payload3.buses.length :=
  claim_C4_amended payload3 DB.empty "Pune" "Mumbai" (by decide)

lemma parse_route_info_eq_none {r : String} (h : (splitTo r.data).length ≠ 2) :
    parse_route_info r = none := by
  unfold parse_route_info
  rcases hs : splitTo r.data with _ | ⟨a, _ | ⟨b, _ | ⟨c, t⟩⟩⟩ <;> simp_all

/-- Amended CLAIM C5: a payload whose route label does not contain the
separator " to " exactly once aborts the whole batch — no observation is
processed, the store is untouched, `route_processed` is false and the
errors list carries exactly one describing message — whatever the state
of the storage backend.  (As stated the claim is refuted by
`claim_C5_counterexample`: a storage failure during route resolution and
session start does not abort the batch; the resolvers swallow the fault
and processing continues with `route_processed = true` and no recorded
error.) -/
theorem claim_C5_amended (F : Failures) (sr : ScrapeResults) (db : DB)
    (h : (splitTo sr.route.data).length ≠ 2) :
    process_scraping_results F sr db =
      (⟨false, 0, 0, ["Could not parse route information"]⟩, db) := by
  unfold process_scraping_results
  rw [parse_route_info_eq_none h]

/-- Counterexample to CLAIM C5 as stated: with the storage backend failing
every operation (in particular route resolution and session start), the
batch is not aborted — the result reports `route_processed = true` and an
empty error list, where the claim demands `false` and one message. -/
theorem claim_C5_counterexample :
    (process_scraping_results ⟨true, true, true, true, true⟩
        ⟨"Pune to Mumbai", "2024-06-01",
         [⟨some "A Travels", none, none, none, none, none, none, none, []⟩]⟩
        DB.empty).1.route_processed = true ∧
    (process_scraping_results ⟨true, true, true, true, true⟩
        ⟨"Pune to Mumbai", "2024-06-01",
         [⟨some "A Travels", none, none, none, none, none, none, none, []⟩]⟩
        DB.empty).1.errors = [] := by decide

/-- Witness for the amended C5 at a concrete malformed route label. -/
theorem claim_C5_witness :
    process_scraping_results noFail ⟨"PuneMumbai", "2024-06-01", []⟩ DB.empty =
      (⟨false, 0, 0, ["Could not parse route information"]⟩, DB.empty) :=
  claim_C5_amended noFail ⟨"PuneMumbai", "2024-06-01", []⟩ DB.empty (by decide)

/-! ### Fare-history ordering (claim C7) -/

/-- A second ingest on a later journey date, for the round-trip check. -/
def payloadB : ScrapeResults :=
  ⟨"Pune to Mumbai", "2024-06-02",
   [⟨some "D Travels", none, some "AC", some "09:00", some "13:00", some "4h",
     some "600", some "8", []⟩]⟩

/-- CLAIM C7: every fare-history result is sorted by journey date
descending with fare ascending as the tie-break, and after ingesting two
payloads the just-inserted fares appear in the history in exactly that
order (newest journey date first, cheapest first within a date). -/
theorem claim_C7 :
    (∀ (db : DB) (src dst : String) (n : Nat),
      List.Sorted histRel (get_route_fare_history db src dst n)) ∧
    get_route_fare_history
        (process_scraping_results noFail payloadB
          (process_scraping_results noFail payload3 DB.empty).2).2
        "Pune" "Mumbai" 30 =
      [⟨"2024-06-02", "D Travels", "AC", "Standard", 600, 8, 0⟩,
       ⟨"2024-06-01", "A Travels", "AC Seater", "Standard", 500, 20, 0⟩,
       ⟨"2024-06-01", "B Travels", "Sleeper", "Seater", 650, 5, 0⟩] :=
  ⟨fun _ _ _ _ => List.sorted_insertionSort _ _, by decide⟩

/-! ### Price-trend arithmetic (claims C1 and C2) -/

/-- The fares of a history carried on one journey date, in record order. -/
def faresOn (h : List HistRec) (d : String) : List ℚ :=
  (h.filter (fun r => r.journey_date = d)).map (·.fare)

/-- Modelled from the specification (§4.6): the mean fare of one journey
date of the history. -/
def specMean (h : List HistRec) (d : String) : ℚ := listMean (faresOn h d)

/-- Modelled from the specification (§4.6): the distinct journey dates of
the history, sorted ascending. -/
def specSortedDates (h : List HistRec) : List String :=
  List.insertionSort dateLe ((h.map (·.journey_date)).dedup)

/-- The last and second-last element of a list, when it has two. -/
def lastTwo (l : List String) : Option (String × String) :=
  match l.reverse with
  | a :: b :: _ => some (a, b)
  | _ => none

/-- Modelled from the specification (§4.6): the day-over-day percentage
change between the last two distinct dates, before rounding. -/
def specPct (h : List HistRec) : ℚ :=
  match lastTwo (specSortedDates h) with
  | some (dl, dp) => ((specMean h dl - specMean h dp) / specMean h dp) * 100
  | none => 0

/-- Modelled from the specification (§4.6): up if the percentage is
positive, down if negative, else stable. -/
def specDir (tp : ℚ) : String :=
  if 0 < tp then "up" else if tp < 0 then "down" else "stable"

lemma addFare_fst (acc : List (String × List ℚ)) (d : String) (f : ℚ) :
    (addFare acc d f).map Prod.fst =
      if d ∈ acc.map Prod.fst then acc.map Prod.fst
      else acc.map Prod.fst ++ [d] := by
  induction acc with
  | nil => simp [addFare]
  | cons p rest ih =>
    rcases p with ⟨d0, fs⟩
    by_cases hd : d0 = d
    · subst hd
      simp [addFare]
    · simp only [addFare, if_neg hd, List.map_cons, ih]
      have hne : d ≠ d0 := fun he => hd he.symm
      by_cases hm : d ∈ rest.map Prod.fst
      · simp [hm, List.mem_cons, hne]
      · simp [hm, List.mem_cons, hne]

lemma lookupG_addFare (acc : List (String × List ℚ)) (d : String) (f : ℚ)
    (x : String) :
    lookupG (addFare acc d f) x =
      if x = d then some ((lookupG acc d).getD [] ++ [f])
      else lookupG acc x := by
  induction acc with
  | nil =>
    by_cases hx : x = d
    · subst hx
      simp [addFare, lookupG]
    · have hdx : d ≠ x := fun he => hx he.symm
      simp [addFare, lookupG, hdx, hx]
  | cons p rest ih =>
    rcases p with ⟨d0, fs⟩
    by_cases hd : d0 = d
    · subst hd
      by_cases hx : x = d0
      · subst hx
        simp [addFare, lookupG]
      · have hdx : d0 ≠ x := fun he => hx he.symm
        simp [addFare, lookupG, hdx, hx]
    · by_cases hx : x = d0
      · subst hx
        simp [addFare, lookupG, hd]
      · have hdx : d0 ≠ x := fun he => hx he.symm
        simp [addFare, lookupG, hd, hdx, hx, ih]

lemma mem_fst_addFare (acc : List (String × List ℚ)) (d : String) (f : ℚ)
    (x : String) :
    x ∈ (addFare acc d f).map Prod.fst ↔ x ∈ acc.map Prod.fst ∨ x = d := by
  rw [addFare_fst]
  by_cases hm : d ∈ acc.map Prod.fst
  · rw [if_pos hm]
    constructor
    · exact Or.inl
    · rintro (hx | rfl)
      · exact hx
      · exact hm
  · rw [if_neg hm]
    simp [List.mem_append]

lemma nodup_fst_addFare (acc : List (String × List ℚ)) (d : String) (f : ℚ)
    (hn : (acc.map Prod.fst).Nodup) : ((addFare acc d f).map Prod.fst).Nodup := by
  rw [addFare_fst]
  by_cases hm : d ∈ acc.map Prod.fst
  · rwa [if_pos hm]
  · rw [if_neg hm]
    simpa using List.Nodup.append hn (List.nodup_singleton d)
      (by simpa using fun he => hm he)

lemma lookupG_eq_none_iff {α : Type} (g : List (String × α)) (x : String) :
    lookupG g x = none ↔ x ∉ g.map Prod.fst := by
  induction g with
  | nil => simp [lookupG]
  | cons p rest ih =>
    rcases p with ⟨k, v⟩
    by_cases hk : k = x
    · subst hk
      simp [lookupG]
    · have hxk : ¬ x = k := fun he => hk he.symm
      simp [lookupG, hk, ih, hxk]

lemma groupFares_go (h : List HistRec) (acc : List (String × List ℚ))
    (x : String) :
    lookupG (h.foldl (fun a r => addFare a r.journey_date r.fare) acc) x =
      if x ∈ acc.map Prod.fst ∨ x ∈ h.map (·.journey_date) then
        some ((lookupG acc x).getD [] ++ faresOn h x)
      else none := by
  induction h generalizing acc with
  | nil =>
    simp only [List.foldl_nil, List.map_nil, List.not_mem_nil, or_false]
    by_cases hm : x ∈ acc.map Prod.fst
    · rw [if_pos hm]
      rcases hl : lookupG acc x with _ | v
      · exact absurd (lookupG_eq_none_iff acc x |>.mp hl) (by simpa using hm)
      · simp [faresOn]
    · rw [if_neg hm]
      exact (lookupG_eq_none_iff acc x).mpr hm
  | cons r h' ih =>
    rw [List.foldl_cons, ih (addFare acc r.journey_date r.fare)]
    by_cases hx : x = r.journey_date
    · have hmem : x ∈ (addFare acc r.journey_date r.fare).map Prod.fst :=
        (mem_fst_addFare acc r.journey_date r.fare x).mpr (Or.inr hx)
      rw [if_pos (Or.inl hmem), if_pos (Or.inr (by simp [hx]))]
      rw [lookupG_addFare, if_pos hx]
      have hfa : faresOn (r :: h') x = r.fare :: faresOn h' x := by
        simp [faresOn, List.filter_cons, hx.symm]
      rw [hfa]
      simp [List.append_assoc, hx]
    · have hmem : x ∈ (addFare acc r.journey_date r.fare).map Prod.fst ↔
          x ∈ acc.map Prod.fst := by
        rw [mem_fst_addFare]
        simp [hx]
      have hfa : faresOn (r :: h') x = faresOn h' x := by
        have hrx : ¬ r.journey_date = x := fun he => hx he.symm
        simp [faresOn, List.filter_cons, hrx]
      have hdates : x ∈ (r :: h').map (·.journey_date) ↔
          x ∈ h'.map (·.journey_date) := by
        simp [hx]
      rw [lookupG_addFare, if_neg hx, hfa]
      by_cases hc : x ∈ acc.map Prod.fst ∨ x ∈ h'.map (·.journey_date)
      · have hc1 : x ∈ (addFare acc r.journey_date r.fare).map Prod.fst ∨
            x ∈ h'.map (·.journey_date) := by
          rcases hc with hc | hc
          · exact Or.inl (hmem.mpr hc)
          · exact Or.inr hc
        have hc2 : x ∈ acc.map Prod.fst ∨
            x ∈ (r :: h').map (·.journey_date) := by
          rcases hc with hc | hc
          · exact Or.inl hc
          · exact Or.inr (hdates.mpr hc)
        rw [if_pos hc1, if_pos hc2]
      · have hc1 : ¬ (x ∈ (addFare acc r.journey_date r.fare).map Prod.fst ∨
            x ∈ h'.map (·.journey_date)) := by
          rintro (hm | hm)
          · exact hc (Or.inl (hmem.mp hm))
          · exact hc (Or.inr hm)
        have hc2 : ¬ (x ∈ acc.map Prod.fst ∨
            x ∈ (r :: h').map (·.journey_date)) := by
          rintro (hm | hm)
          · exact hc (Or.inl hm)
          · exact hc (Or.inr (hdates.mp hm))
        rw [if_neg hc1, if_neg hc2]

lemma lookupG_groupFares (h : List HistRec) (x : String) :
    lookupG (groupFares h) x =
      if x ∈ h.map (·.journey_date) then some (faresOn h x) else none := by
  have hg := groupFares_go h [] x
  simpa [groupFares, lookupG] using hg

lemma mem_fst_groupFares (h : List HistRec) (x : String) :
    x ∈ (groupFares h).map Prod.fst ↔ x ∈ h.map (·.journey_date) := by
  constructor
  · intro hm
    by_contra hd
    have := (lookupG_eq_none_iff (groupFares h) x).mp
      (by rw [lookupG_groupFares, if_neg hd])
    exact this hm
  · intro hd
    by_contra hm
    have := (lookupG_eq_none_iff (groupFares h) x).mpr hm
    rw [lookupG_groupFares, if_pos hd] at this
    cases this

lemma nodup_fst_groupFares (h : List HistRec) :
    ((groupFares h).map Prod.fst).Nodup := by
  suffices hgen : ∀ acc : List (String × List ℚ), (acc.map Prod.fst).Nodup →
      ((h.foldl (fun a r => addFare a r.journey_date r.fare) acc).map
        Prod.fst).Nodup by
    exact hgen [] (by simp)
  induction h with
  | nil => exact fun acc ha => ha
  | cons r h' ih =>
    intro acc ha
    rw [List.foldl_cons]
    exact ih _ (nodup_fst_addFare acc r.journey_date r.fare ha)

lemma map_fst_map_mean (g : List (String × List ℚ)) :
    (g.map (fun p => (p.1, listMean p.2))).map Prod.fst = g.map Prod.fst := by
  induction g with
  | nil => rfl
  | cons p rest ih => simp [ih]

lemma lookupG_map_mean (g : List (String × List ℚ)) (x : String) :
    lookupG (g.map (fun p => (p.1, listMean p.2))) x =
      (lookupG g x).map listMean := by
  induction g with
  | nil => simp [lookupG]
  | cons p rest ih =>
    rcases p with ⟨k, v⟩
    by_cases hk : k = x <;> simp [lookupG, hk, ih]

lemma sortedDates_eq (h : List HistRec) :
    List.insertionSort dateLe ((groupFares h).map Prod.fst) =
      specSortedDates h := by
  unfold specSortedDates
  have hperm : List.Perm
      (List.insertionSort dateLe ((groupFares h).map Prod.fst))
      (List.insertionSort dateLe ((h.map (·.journey_date)).dedup)) := by
    have h1 : List.Perm (List.insertionSort dateLe ((groupFares h).map Prod.fst))
        ((groupFares h).map Prod.fst) := List.perm_insertionSort _ _
    have h2 : List.Perm ((h.map (·.journey_date)).dedup)
        (List.insertionSort dateLe ((h.map (·.journey_date)).dedup)) :=
      (List.perm_insertionSort _ _).symm
    refine h1.trans (List.Perm.trans ?_ h2)
    rw [List.perm_ext_iff_of_nodup (nodup_fst_groupFares h) (List.nodup_dedup _)]
    intro a
    rw [mem_fst_groupFares, List.mem_dedup]
  exact List.eq_of_perm_of_sorted hperm (List.sorted_insertionSort _ _)
    (List.sorted_insertionSort _ _)

lemma round2_zero : round2 0 = 0 := by
  unfold round2 rhe
  norm_num

lemma trendDir_zero : trendDir 0 = "stable" := by
  unfold trendDir
  norm_num

lemma hlookup_mean (h : List HistRec) (d : String)
    (hd : d ∈ h.map (·.journey_date)) :
    lookupG ((groupFares h).map (fun p => (p.1, listMean p.2))) d =
      some (specMean h d) := by
  rw [lookupG_map_mean, lookupG_groupFares, if_pos hd]
  rfl

/-- Amended CLAIM C2: for every non-empty fare history,
`_calculate_price_trends` returns a defined structure whose
`average_fares_by_date` has exactly the distinct journey dates as keys,
each mapped to the mean fare of that date; with fewer than 2 distinct
dates the trend is 0 / stable; with at least 2 distinct dates — and the
second-last date's mean nonzero, the case in which the division is
defined — the trend percentage is the day-over-day change rounded to two
decimals and the direction is derived from the unrounded percentage (up
if positive, down if negative, else stable).  (As stated the claim is
refuted by `claim_C2_counterexample`: for the empty history the code
returns the empty dictionary, not a 0/stable structure.) -/
theorem claim_C2_amended (h : List HistRec) (hne : h ≠ [])
    (hz : ∀ dl dp, lastTwo (specSortedDates h) = some (dl, dp) →
      specMean h dp ≠ 0) :
    ∃ t, calc_price_trends h = some t ∧
      (t.average_fares_by_date.map Prod.fst).Nodup ∧
      (∀ d, d ∈ t.average_fares_by_date.map Prod.fst ↔
        d ∈ h.map (·.journey_date)) ∧
      (∀ d q, lookupG t.average_fares_by_date d = some q → q = specMean h d) ∧
      (match lastTwo (specSortedDates h) with
       | some _ => t.trend_percentage = round2 (specPct h) ∧
                   t.trend_direction = specDir (specPct h)
       | none => t.trend_percentage = 0 ∧ t.trend_direction = "stable") := by
  have havg_keys_nodup :
      (((groupFares h).map (fun p => (p.1, listMean p.2))).map Prod.fst).Nodup := by
    rw [map_fst_map_mean]
    exact nodup_fst_groupFares h
  have havg_mem : ∀ d,
      d ∈ ((groupFares h).map (fun p => (p.1, listMean p.2))).map Prod.fst ↔
        d ∈ h.map (·.journey_date) := by
    intro d
    rw [map_fst_map_mean]
    exact mem_fst_groupFares h d
  have havg_val : ∀ d q,
      lookupG ((groupFares h).map (fun p => (p.1, listMean p.2))) d = some q →
        q = specMean h d := by
    intro d q hq
    rw [lookupG_map_mean, lookupG_groupFares] at hq
    by_cases hd : d ∈ h.map (·.journey_date)
    · rw [if_pos hd] at hq
      exact (Option.some.inj hq).symm
    · rw [if_neg hd] at hq
      cases hq
  have hnotempty : ¬ h.isEmpty = true := by
    rcases h with _ | ⟨r0, h0⟩
    · exact absurd rfl hne
    · simp
  simp only [calc_price_trends, map_fst_map_mean, sortedDates_eq]
  rw [if_neg hnotempty]
  rcases hrev : (specSortedDates h).reverse with _ | ⟨dl, _ | ⟨dp, rest⟩⟩
  · have hlt : lastTwo (specSortedDates h) = none := by
      unfold lastTwo
      rw [hrev]
    refine ⟨_, rfl, havg_keys_nodup, havg_mem, havg_val, ?_⟩
    rw [hlt]
    exact ⟨round2_zero, by rw [trendDir_zero]⟩
  · have hlt : lastTwo (specSortedDates h) = none := by
      unfold lastTwo
      rw [hrev]
    refine ⟨_, rfl, havg_keys_nodup, havg_mem, havg_val, ?_⟩
    rw [hlt]
    exact ⟨round2_zero, by rw [trendDir_zero]⟩
  · have hlt : lastTwo (specSortedDates h) = some (dl, dp) := by
      unfold lastTwo
      rw [hrev]
    have hdl : dl ∈ h.map (·.journey_date) := by
      have hmem : dl ∈ (specSortedDates h).reverse := by
        rw [hrev]
        exact List.mem_cons_self dl _
      rw [List.mem_reverse] at hmem
      unfold specSortedDates at hmem
      rw [(List.perm_insertionSort dateLe _).mem_iff, List.mem_dedup] at hmem
      exact hmem
    have hdp : dp ∈ h.map (·.journey_date) := by
      have hmem : dp ∈ (specSortedDates h).reverse := by
        rw [hrev]
        exact List.mem_cons_of_mem dl (List.mem_cons_self dp _)
      rw [List.mem_reverse] at hmem
      unfold specSortedDates at hmem
      rw [(List.perm_insertionSort dateLe _).mem_iff, List.mem_dedup] at hmem
      exact hmem
    have hpct : specPct h =
        ((specMean h dl - specMean h dp) / specMean h dp) * 100 := by
      unfold specPct
      rw [hlt]
    simp only [hlookup_mean h dl hdl, hlookup_mean h dp hdp, Option.getD_some]
    rw [if_neg (hz dl dp hlt)]
    refine ⟨_, rfl, havg_keys_nodup, havg_mem, havg_val, ?_⟩
    rw [hlt, hpct]
    exact ⟨rfl, rfl⟩

/-- The specification's two-date example history: one 100 fare on the
first date, one 150 fare on the second. -/
def histEx : List HistRec :=
  [⟨"2024-01-01", "A Travels", "AC", "Seater", 100, 10, 0⟩,
   ⟨"2024-01-02", "A Travels", "AC", "Seater", 150, 10, 0⟩]

/-- Witness for the amended C2 at the specification's `{day1: [100],
day2: [150]}` example: both hypotheses hold and the trend structure is
defined. -/
theorem claim_C2_witness : (calc_price_trends histEx).isSome = true := by
  have hz : ∀ dl dp, lastTwo (specSortedDates histEx) = some (dl, dp) →
      specMean histEx dp ≠ 0 := by
    intro dl dp hl
    rw [show lastTwo (specSortedDates histEx) =
        some ("2024-01-02", "2024-01-01") from by decide] at hl
    cases hl
    norm_num [specMean, listMean,
      show faresOn histEx "2024-01-01" = [100] from by decide]
  obtain ⟨t, ht, -, -, -, -⟩ := claim_C2_amended histEx (by decide) hz
  rw [ht]
  rfl

/-- Counterexample to CLAIM C2 as stated: over the empty fare history the
code returns the empty dictionary (no `trendPercentage`/`trendDirection`
fields), while the claim requires trendPercentage = 0 and direction
stable for histories with fewer than 2 distinct dates, the empty one
included. -/
theorem claim_C2_counterexample : calc_price_trends [] = none := rfl

/-- CLAIM C1 (code evaluation): a fare history spanning the two distinct
dates 2024-01-01 and 2024-01-02 whose second-last date has mean fare 0
makes `_calculate_price_trends` raise `ZeroDivisionError` internally,
which its `except` branch converts to the empty dictionary — not the
guarded stable/0 structure the specification mandates. -/
theorem claim_C1_code_eval :
    calc_price_trends
      [⟨"2024-01-01", "A Travels", "AC", "Seater", 0, 10, 0⟩,
       ⟨"2024-01-02", "A Travels", "AC", "Seater", 100, 10, 0⟩] = none := by
  have hg : groupFares
      [⟨"2024-01-01", "A Travels", "AC", "Seater", 0, 10, 0⟩,
       ⟨"2024-01-02", "A Travels", "AC", "Seater", 100, 10, 0⟩] =
      [("2024-01-01", [0]), ("2024-01-02", [100])] := by decide
  have hm1 : listMean [(0 : ℚ)] = 0 := by
    norm_num [listMean]
  have hm2 : listMean [(100 : ℚ)] = 100 := by
    norm_num [listMean]
  have hsort : List.insertionSort dateLe ["2024-01-01", "2024-01-02"] =
      ["2024-01-01", "2024-01-02"] := by decide
  simp only [calc_price_trends, hg, List.map_cons, List.map_nil, hm1, hm2,
    List.isEmpty_cons, Bool.false_eq_true, if_false, hsort, List.reverse_cons,
    List.reverse_nil, List.nil_append, List.cons_append, List.singleton_append]
  simp [lookupG]

end RedBus
